import Mathlib

/-!
Verification of the qoboy Game Boy (DMG) emulator core.

The Rust sources under `src/soc/nvic.rs`, `src/soc/peripheral/mod.rs` and
`src/emulator.rs` are embedded shallowly: u8 and u16 register values are
carried as `Nat` with explicit `% 256` / `% 65536` where the source performs
machine arithmetic, memories are functions `Nat → Nat`, and fallible
operations (Rust `panic!` branches) return `Option`, with `none` marking the
panic branch.  Components of the repository that are not part of the covered
sources (GPU, timer, boot ROM, cartridge, keypad, SoC) are modelled from the
specification and carry a doc comment saying so.
-/

set_option maxRecDepth 10000

namespace Qoboy

/-- Interrupt sources of the NVIC in priority order (enum InterruptSources,
src/soc/nvic.rs). -/
inductive InterruptSources where
  | VBLANK
  | STAT
  | TIMER
  | SERIAL
  | JOYPAD
  deriving DecidableEq, Repr

/-- Discriminant of the Rust enum: VBLANK = 0 … JOYPAD = 4. -/
def InterruptSources.index : InterruptSources → Nat
  | .VBLANK => 0
  | .STAT => 1
  | .TIMER => 2
  | .SERIAL => 3
  | .JOYPAD => 4

/-- Interrupt controller state (struct Nvic, src/soc/nvic.rs). -/
structure Nvic where
  interrupt_master_enable : Bool
  interrupt_enable : Nat
  interrupt_flag : Nat
  deriving DecidableEq, Repr

/-- Nvic::new (src/soc/nvic.rs lines 20-26). -/
def Nvic.new : Nvic :=
  { interrupt_master_enable := false
    interrupt_enable := 0
    interrupt_flag := 0 }

/-- Nvic::master_enable. -/
def Nvic.master_enable (n : Nvic) (enable : Bool) : Nvic :=
  { n with interrupt_master_enable := enable }

/-- Nvic::enable_interrupt.  The u8 complement `!(1 << i)` is written as
`255 ^^^ (1 <<< i)`. -/
def Nvic.enable_interrupt (n : Nvic) (source : InterruptSources) (enable : Bool) : Nvic :=
  if enable then
    { n with interrupt_enable := n.interrupt_enable ||| (1 <<< source.index) }
  else
    { n with interrupt_enable := n.interrupt_enable &&& (255 ^^^ (1 <<< source.index)) }

/-- Nvic::set_interrupt. -/
def Nvic.set_interrupt (n : Nvic) (source : InterruptSources) : Nvic :=
  { n with interrupt_flag := n.interrupt_flag ||| (1 <<< source.index) }

/-- Nvic::get_interrupt (src/soc/nvic.rs lines 44-66).  The Rust for-loop over
interrupt indices 0..=4 is unrolled; each guard is the source's
`(interrupt_enable & interrupt_flag & (1 << i)) != 0` test, and on a hit that
single flag bit is cleared (`interrupt_flag &= !(1 << i)`, the u8 complement
written `255 ^^^ mask`).  The returned pair is (result, updated state). -/
def Nvic.get_interrupt (n : Nvic) : Option InterruptSources × Nvic :=
  if n.interrupt_enable &&& n.interrupt_flag &&& 1 ≠ 0 then
    (some .VBLANK, { n with interrupt_flag := n.interrupt_flag &&& (255 ^^^ 1) })
  else if n.interrupt_enable &&& n.interrupt_flag &&& 2 ≠ 0 then
    (some .STAT, { n with interrupt_flag := n.interrupt_flag &&& (255 ^^^ 2) })
  else if n.interrupt_enable &&& n.interrupt_flag &&& 4 ≠ 0 then
    (some .TIMER, { n with interrupt_flag := n.interrupt_flag &&& (255 ^^^ 4) })
  else if n.interrupt_enable &&& n.interrupt_flag &&& 8 ≠ 0 then
    (some .SERIAL, { n with interrupt_flag := n.interrupt_flag &&& (255 ^^^ 8) })
  else if n.interrupt_enable &&& n.interrupt_flag &&& 16 ≠ 0 then
    (some .JOYPAD, { n with interrupt_flag := n.interrupt_flag &&& (255 ^^^ 16) })
  else (none, n)

/-- Nvic::is_an_interrupt_pending. -/
def Nvic.is_an_interrupt_pending (n : Nvic) : Bool :=
  n.interrupt_enable &&& n.interrupt_flag ≠ 0

/-- Nvic::is_an_interrupt_to_run. -/
def Nvic.is_an_interrupt_to_run (n : Nvic) : Bool :=
  n.interrupt_master_enable && n.is_an_interrupt_pending

/-- Nvic::from_byte (src/soc/nvic.rs lines 89-91). -/
def Nvic.from_byte (n : Nvic) (data : Nat) : Nvic :=
  { n with interrupt_enable := data }

/-- Nvic::to_byte (src/soc/nvic.rs lines 93-95): `0b11100000 | interrupt_enable`. -/
def Nvic.to_byte (n : Nvic) : Nat :=
  0xE0 ||| n.interrupt_enable

/-- Modelled from the spec: `Nvic::get_it_enable` is called by the bus
(src/soc/peripheral/mod.rs line 270) but is not among the included sources.
Spec §3 says the upper 3 bits of IE read as 1, which matches the included
Nvic::to_byte. -/
def Nvic.get_it_enable (n : Nvic) : Nat :=
  0xE0 ||| n.interrupt_enable

/-- Modelled from the spec: `Nvic::set_it_enable` (bus write to 0xFFFF) is not
among the included sources; it stores the written byte in IE, matching the
included Nvic::from_byte. -/
def Nvic.set_it_enable (n : Nvic) (data : Nat) : Nvic :=
  { n with interrupt_enable := data }

/-- Modelled from the spec: `Nvic::get_it_flag` (bus read of 0xFF0F) is not
among the included sources.  Spec §3: the upper 3 bits of IF read as 1. -/
def Nvic.get_it_flag (n : Nvic) : Nat :=
  0xE0 ||| n.interrupt_flag

/-- Modelled from the spec: `Nvic::set_it_flag` (bus write to 0xFF0F) is not
among the included sources; it stores the written byte in IF. -/
def Nvic.set_it_flag (n : Nvic) (data : Nat) : Nvic :=
  { n with interrupt_flag := data }

/-- Source corresponding to a pending-bit index, as in the match on `1 << i`
inside Nvic::get_interrupt. -/
def sourceOfIndex : Nat → InterruptSources
  | 0 => .VBLANK
  | 1 => .STAT
  | 2 => .TIMER
  | 3 => .SERIAL
  | _ => .JOYPAD

theorem and_two_pow_ne_zero_iff (x i : Nat) : (x &&& 2 ^ i ≠ 0) ↔ x.testBit i = true := by
  rw [Nat.and_two_pow]
  cases h : x.testBit i
  · simp
  · simpa using (Nat.two_pow_pos i).ne'

theorem testBit_clear_self (x k : Nat) (hk : k < 8) :
    (x &&& (255 ^^^ 2 ^ k)).testBit k = false := by
  rw [Nat.testBit_and, Nat.testBit_xor]
  rw [show (255 : Nat) = 2 ^ 8 - 1 by norm_num]
  rw [Nat.testBit_two_pow_sub_one, Nat.testBit_two_pow_self]
  simp [hk]

theorem testBit_clear_other (x k j : Nat) (hx : x < 256) (hk : k < 8) (hj : j ≠ k) :
    (x &&& (255 ^^^ 2 ^ k)).testBit j = x.testBit j := by
  rw [Nat.testBit_and, Nat.testBit_xor]
  rw [show (255 : Nat) = 2 ^ 8 - 1 by norm_num]
  rw [Nat.testBit_two_pow_sub_one, Nat.testBit_two_pow]
  rcases Nat.lt_or_ge j 8 with hj8 | hj8
  · have hkj : ¬ (k = j) := fun h => hj h.symm
    simp [hj8, hkj]
  · have hxj : x.testBit j = false := by
      refine Nat.testBit_lt_two_pow (lt_of_lt_of_le hx ?_)
      calc (256 : Nat) = 2 ^ 8 := by norm_num
        _ ≤ 2 ^ j := Nat.pow_le_pow_right (by norm_num) hj8
    simp [Nat.not_lt.mpr hj8, hxj]

/-- C1: when several source bits of `IE & IF` are pending, Nvic::get_interrupt
returns the lowest-indexed source (VBLANK = bit 0 highest priority, JOYPAD =
bit 4 lowest), clears exactly that one bit from the interrupt flag register,
and leaves IE, IME and all the other flag bits unchanged. -/
theorem nvic_priority_lowest_bit (n : Nvic) (k : Nat) (hk : k ≤ 4)
    (hif : n.interrupt_flag < 256)
    (hset : (n.interrupt_enable &&& n.interrupt_flag).testBit k = true)
    (hlow : ∀ j < k, (n.interrupt_enable &&& n.interrupt_flag).testBit j = false)
    (_hmulti : ∃ j < 5, k < j ∧ (n.interrupt_enable &&& n.interrupt_flag).testBit j = true) :
    (n.get_interrupt).1 = some (sourceOfIndex k) ∧
    (n.get_interrupt).2.interrupt_enable = n.interrupt_enable ∧
    (n.get_interrupt).2.interrupt_master_enable = n.interrupt_master_enable ∧
    (n.get_interrupt).2.interrupt_flag.testBit k = false ∧
    (∀ j, j ≠ k → (n.get_interrupt).2.interrupt_flag.testBit j = n.interrupt_flag.testBit j) := by
  have hb0 := and_two_pow_ne_zero_iff (n.interrupt_enable &&& n.interrupt_flag) 0
  have hb1 := and_two_pow_ne_zero_iff (n.interrupt_enable &&& n.interrupt_flag) 1
  have hb2 := and_two_pow_ne_zero_iff (n.interrupt_enable &&& n.interrupt_flag) 2
  have hb3 := and_two_pow_ne_zero_iff (n.interrupt_enable &&& n.interrupt_flag) 3
  have hb4 := and_two_pow_ne_zero_iff (n.interrupt_enable &&& n.interrupt_flag) 4
  rw [show (2:Nat)^0 = 1 by norm_num] at hb0
  rw [show (2:Nat)^1 = 2 by norm_num] at hb1
  rw [show (2:Nat)^2 = 4 by norm_num] at hb2
  rw [show (2:Nat)^3 = 8 by norm_num] at hb3
  rw [show (2:Nat)^4 = 16 by norm_num] at hb4
  interval_cases k
  · unfold Nvic.get_interrupt
    rw [if_pos (hb0.mpr hset)]
    refine ⟨rfl, rfl, rfl, ?_, ?_⟩
    · have h := testBit_clear_self n.interrupt_flag 0 (by norm_num)
      rw [show (2:Nat)^0 = 1 by norm_num] at h
      exact h
    · intro j hj
      have h := testBit_clear_other n.interrupt_flag 0 j hif (by norm_num) hj
      rw [show (2:Nat)^0 = 1 by norm_num] at h
      exact h
  · have d0 : ¬ (n.interrupt_enable &&& n.interrupt_flag &&& 1 ≠ 0) := fun hc =>
      absurd (hb0.mp hc) (by simp [hlow 0 (by norm_num)])
    unfold Nvic.get_interrupt
    rw [if_neg d0, if_pos (hb1.mpr hset)]
    refine ⟨rfl, rfl, rfl, ?_, ?_⟩
    · have h := testBit_clear_self n.interrupt_flag 1 (by norm_num)
      rw [show (2:Nat)^1 = 2 by norm_num] at h
      exact h
    · intro j hj
      have h := testBit_clear_other n.interrupt_flag 1 j hif (by norm_num) hj
      rw [show (2:Nat)^1 = 2 by norm_num] at h
      exact h
  · have d0 : ¬ (n.interrupt_enable &&& n.interrupt_flag &&& 1 ≠ 0) := fun hc =>
      absurd (hb0.mp hc) (by simp [hlow 0 (by norm_num)])
    have d1 : ¬ (n.interrupt_enable &&& n.interrupt_flag &&& 2 ≠ 0) := fun hc =>
      absurd (hb1.mp hc) (by simp [hlow 1 (by norm_num)])
    unfold Nvic.get_interrupt
    rw [if_neg d0, if_neg d1, if_pos (hb2.mpr hset)]
    refine ⟨rfl, rfl, rfl, ?_, ?_⟩
    · have h := testBit_clear_self n.interrupt_flag 2 (by norm_num)
      rw [show (2:Nat)^2 = 4 by norm_num] at h
      exact h
    · intro j hj
      have h := testBit_clear_other n.interrupt_flag 2 j hif (by norm_num) hj
      rw [show (2:Nat)^2 = 4 by norm_num] at h
      exact h
  · have d0 : ¬ (n.interrupt_enable &&& n.interrupt_flag &&& 1 ≠ 0) := fun hc =>
      absurd (hb0.mp hc) (by simp [hlow 0 (by norm_num)])
    have d1 : ¬ (n.interrupt_enable &&& n.interrupt_flag &&& 2 ≠ 0) := fun hc =>
      absurd (hb1.mp hc) (by simp [hlow 1 (by norm_num)])
    have d2 : ¬ (n.interrupt_enable &&& n.interrupt_flag &&& 4 ≠ 0) := fun hc =>
      absurd (hb2.mp hc) (by simp [hlow 2 (by norm_num)])
    unfold Nvic.get_interrupt
    rw [if_neg d0, if_neg d1, if_neg d2, if_pos (hb3.mpr hset)]
    refine ⟨rfl, rfl, rfl, ?_, ?_⟩
    · have h := testBit_clear_self n.interrupt_flag 3 (by norm_num)
      rw [show (2:Nat)^3 = 8 by norm_num] at h
      exact h
    · intro j hj
      have h := testBit_clear_other n.interrupt_flag 3 j hif (by norm_num) hj
      rw [show (2:Nat)^3 = 8 by norm_num] at h
      exact h
  · have d0 : ¬ (n.interrupt_enable &&& n.interrupt_flag &&& 1 ≠ 0) := fun hc =>
      absurd (hb0.mp hc) (by simp [hlow 0 (by norm_num)])
    have d1 : ¬ (n.interrupt_enable &&& n.interrupt_flag &&& 2 ≠ 0) := fun hc =>
      absurd (hb1.mp hc) (by simp [hlow 1 (by norm_num)])
    have d2 : ¬ (n.interrupt_enable &&& n.interrupt_flag &&& 4 ≠ 0) := fun hc =>
      absurd (hb2.mp hc) (by simp [hlow 2 (by norm_num)])
    have d3 : ¬ (n.interrupt_enable &&& n.interrupt_flag &&& 8 ≠ 0) := fun hc =>
      absurd (hb3.mp hc) (by simp [hlow 3 (by norm_num)])
    unfold Nvic.get_interrupt
    rw [if_neg d0, if_neg d1, if_neg d2, if_neg d3, if_pos (hb4.mpr hset)]
    refine ⟨rfl, rfl, rfl, ?_, ?_⟩
    · have h := testBit_clear_self n.interrupt_flag 4 (by norm_num)
      rw [show (2:Nat)^4 = 16 by norm_num] at h
      exact h
    · intro j hj
      have h := testBit_clear_other n.interrupt_flag 4 j hif (by norm_num) hj
      rw [show (2:Nat)^4 = 16 by norm_num] at h
      exact h

/-- Witness for C1 at IE = 0x13, IF = 0x12: bits 1 (STAT) and 4 (JOYPAD) of
`IE & IF` are both pending and STAT, the lowest, is returned. -/
theorem nvic_priority_lowest_bit_witness :
    ((Nvic.mk false 0x13 0x12).get_interrupt).1 = some (sourceOfIndex 1) :=
  (nvic_priority_lowest_bit (Nvic.mk false 0x13 0x12) 1 (by norm_num) (by norm_num)
    (by decide) (by decide) (by decide)).1

/-- C7: when `IE & IF = 0`, Nvic::get_interrupt returns none and leaves the
whole controller state (IME, IE, IF) unchanged. -/
theorem nvic_get_interrupt_none (n : Nvic)
    (h : n.interrupt_enable &&& n.interrupt_flag = 0) :
    n.get_interrupt = (none, n) := by
  rw [Nvic.get_interrupt, h]
  simp

/-- Witness for C7 at IE = 0x10, IF = 0x0F (no enabled bit is pending). -/
theorem nvic_get_interrupt_none_witness :
    (Nvic.mk true 0x10 0x0F).get_interrupt = (none, Nvic.mk true 0x10 0x0F) :=
  nvic_get_interrupt_none (Nvic.mk true 0x10 0x0F) (by decide)

/-- Modelled from the spec: struct BootRom (src/soc/peripheral/bootrom.rs is
not among the included sources).  Spec §2 and §4.1: it serves the 256-byte
boot program while the overlay flag is set; `set_state` is called by the bus
write to 0xFF50 and `get_state` by reads of 0x0000-0x00FF. -/
structure BootRom where
  rom : Nat → Nat
  enabled : Bool

/-- Modelled from the spec (§3): the boot-ROM overlay is enabled at reset. -/
def BootRom.new : BootRom :=
  { rom := fun _ => 0, enabled := true }

def BootRom.get_state (b : BootRom) : Bool := b.enabled

def BootRom.set_state (b : BootRom) (s : Bool) : BootRom := { b with enabled := s }

def BootRom.read (b : BootRom) (address : Nat) : Nat := b.rom address

/-- Modelled from the spec: loading stores the boot program bytes. -/
def BootRom.load (b : BootRom) (rom : Nat → Nat) : BootRom := { b with rom := rom }

/-- Modelled from the spec: the cartridge is an external collaborator (§1 and
§6); only its bus interface is modelled.  ROM banks and external RAM are
abstract byte maps indexed by the full bus address, as the Rust bus passes
`address as usize` straight through. -/
structure Cartridge where
  bank0 : Nat → Nat
  bankN : Nat → Nat
  ram : Nat → Nat

def Cartridge.read_bank_0 (c : Cartridge) (address : Nat) : Nat := c.bank0 address

def Cartridge.read_bank_n (c : Cartridge) (address : Nat) : Nat := c.bankN address

def Cartridge.read_ram (c : Cartridge) (address : Nat) : Nat := c.ram address

/-- Modelled from the spec: MBC control writes are external behavior beyond
the bus interface (§1); they do not change the modelled byte maps. -/
def Cartridge.write_bank_0 (c : Cartridge) (_address _data : Nat) : Cartridge := c

/-- Modelled from the spec: MBC control writes are external behavior beyond
the bus interface (§1); they do not change the modelled byte maps. -/
def Cartridge.write_bank_n (c : Cartridge) (_address _data : Nat) : Cartridge := c

def Cartridge.write_ram (c : Cartridge) (address data : Nat) : Cartridge :=
  { c with ram := fun j => if j = address then data else c.ram j }

/-- Modelled from the spec: Cartridge::run advances MBC-internal timing only
(§6); it has no effect on the modelled byte maps. -/
def Cartridge.run (c : Cartridge) (_cycles : Nat) : Cartridge := c

/-- Modelled from the spec: struct Gpu (src/soc/peripheral/gpu.rs is not among
the included sources).  Spec §3 and §4.4: VRAM, OAM, the LCD registers and an
internal mode clock.  The frame buffer and STAT mode bits are not modelled
because no claim depends on them. -/
structure Gpu where
  vram : Nat → Nat
  oam : Nat → Nat
  control : Nat
  status : Nat
  scy : Nat
  scx : Nat
  current_line : Nat
  compare_line : Nat
  window_y : Nat
  window_x : Nat
  background_palette : Nat
  object_palette_0 : Nat
  object_palette_1 : Nat
  clock : Nat

/-- Modelled from the spec (§3): VRAM resets to 0xFF, registers to 0. -/
def Gpu.new : Gpu :=
  { vram := fun _ => 0xFF, oam := fun _ => 0, control := 0, status := 0,
    scy := 0, scx := 0, current_line := 0, compare_line := 0,
    window_y := 0, window_x := 0, background_palette := 0,
    object_palette_0 := 0, object_palette_1 := 0, clock := 0 }

def Gpu.read_vram (g : Gpu) (address : Nat) : Nat := g.vram address

def Gpu.write_vram (g : Gpu) (address data : Nat) : Gpu :=
  { g with vram := fun j => if j = address then data else g.vram j }

def Gpu.read_oam (g : Gpu) (address : Nat) : Nat := g.oam address

def Gpu.write_oam (g : Gpu) (address data : Nat) : Gpu :=
  { g with oam := fun j => if j = address then data else g.oam j }

def Gpu.control_to_byte (g : Gpu) : Nat := g.control

def Gpu.control_from_byte (g : Gpu) (data : Nat) : Gpu := { g with control := data }

def Gpu.status_to_byte (g : Gpu) : Nat := g.status

def Gpu.status_from_byte (g : Gpu) (data : Nat) : Gpu := { g with status := data }

def Gpu.get_scy (g : Gpu) : Nat := g.scy

def Gpu.set_scy (g : Gpu) (data : Nat) : Gpu := { g with scy := data }

def Gpu.get_scx (g : Gpu) : Nat := g.scx

def Gpu.set_scx (g : Gpu) (data : Nat) : Gpu := { g with scx := data }

def Gpu.get_current_line (g : Gpu) : Nat := g.current_line

def Gpu.get_compare_line (g : Gpu) : Nat := g.compare_line

def Gpu.set_compare_line (g : Gpu) (data : Nat) : Gpu := { g with compare_line := data }

def Gpu.get_window_y (g : Gpu) : Nat := g.window_y

def Gpu.set_window_y (g : Gpu) (data : Nat) : Gpu := { g with window_y := data }

def Gpu.get_window_x (g : Gpu) : Nat := g.window_x

def Gpu.set_window_x (g : Gpu) (data : Nat) : Gpu := { g with window_x := data }

def Gpu.set_background_palette (g : Gpu) (data : Nat) : Gpu :=
  { g with background_palette := data }

def Gpu.set_object_palette_0 (g : Gpu) (data : Nat) : Gpu :=
  { g with object_palette_0 := data }

def Gpu.set_object_palette_1 (g : Gpu) (data : Nat) : Gpu :=
  { g with object_palette_1 := data }

/-- Modelled from the spec (§4.4): Gpu::run advances the internal clock and
the line counter and raises the VBLANK interrupt on entering the vertical
blank; VRAM, OAM and the LCD registers are not modified.  Sub-line STAT
timing and frame-buffer rendering are omitted (no claim depends on them). -/
def Gpu.run (g : Gpu) (cycles : Nat) (n : Nvic) : Gpu × Nvic :=
  let clock2 := g.clock + cycles * 4
  let lines := clock2 / 456
  let n2 := if g.current_line < 144 ∧ 144 ≤ g.current_line + lines then
    n.set_interrupt .VBLANK else n
  ({ g with clock := clock2 % 456, current_line := (g.current_line + lines) % 154 }, n2)

/-- Modelled from the spec: struct Timer (src/soc/peripheral/timer.rs is not
among the included sources).  Spec §4.3: a 16-bit counter `sys` whose upper 8
bits are DIV, plus TIMA, TMA and TAC. -/
structure Timer where
  sys : Nat
  tima : Nat
  tma : Nat
  tac : Nat

/-- Modelled from the spec (§3): all timer registers reset to 0. -/
def Timer.new : Timer := { sys := 0, tima := 0, tma := 0, tac := 0 }

def Timer.get_divider (t : Timer) : Nat := (t.sys / 256) % 256

def Timer.set_divider (t : Timer) : Timer := { t with sys := 0 }

def Timer.get_value (t : Timer) : Nat := t.tima

def Timer.set_value (t : Timer) (data : Nat) : Timer := { t with tima := data }

def Timer.get_modulo (t : Timer) : Nat := t.tma

def Timer.set_modulo (t : Timer) (data : Nat) : Timer := { t with tma := data }

def Timer.settings_from_byte (t : Timer) (data : Nat) : Timer := { t with tac := data }

/-- Modelled from the spec (§4.3): clock-select periods in T-states. -/
def tacPeriod : Nat → Nat
  | 0 => 1024
  | 1 => 16
  | 2 => 64
  | _ => 256

/-- Modelled from the spec (§4.3): Timer::run advances `sys` by `cycles * 4`
T-states; while TAC bit 2 is set, TIMA gains one increment per elapsed
period, reloading from TMA and raising the TIMER interrupt on overflow
(several overflows inside one call are collapsed into one reload). -/
def Timer.run (t : Timer) (cycles : Nat) (n : Nvic) : Timer × Nvic :=
  let total := t.sys + cycles * 4
  let sys2 := total % 65536
  if t.tac &&& 4 ≠ 0 then
    let tima2 := t.tima + (total / tacPeriod (t.tac % 4) - t.sys / tacPeriod (t.tac % 4))
    if 256 ≤ tima2 then
      ({ t with sys := sys2, tima := t.tma }, n.set_interrupt .TIMER)
    else
      ({ t with sys := sys2, tima := tima2 }, n)
  else ({ t with sys := sys2 }, n)

/-- Modelled from the spec: struct Keypad (src/soc/peripheral/keypad.rs is not
among the included sources).  Spec §4.6: a column-select byte (P14/P15
active-low) and two active-low nibbles of button state. -/
structure Keypad where
  select : Nat
  directions : Nat
  actions : Nat

/-- Modelled from the spec: reset with no column selected, no button held. -/
def Keypad.new : Keypad := { select := 0x30, directions := 0xF, actions := 0xF }

/-- Modelled from the spec (§4.6): `read(P1)` returns
`0xC0 | select | selected_nibble`. -/
def Keypad.get (k : Keypad) : Nat :=
  0xC0 ||| k.select |||
    (if k.select &&& 0x10 = 0 then k.directions
     else if k.select &&& 0x20 = 0 then k.actions
     else 0xF)

/-- Modelled from the spec (§4.6): a write to P1 stores the column-select
bits. -/
def Keypad.control (k : Keypad) (data : Nat) : Keypad :=
  { k with select := data &&& 0x30 }

/-- Bus state (struct Peripheral, src/soc/peripheral/mod.rs lines 77-90).
Work RAM (0x2000 bytes) and zero-page RAM (0x7F bytes) are byte maps; the
three DMA fields mirror `dma_cycles: u8`, `dma_start_adress: u16` and
`dma_enabled: bool`. -/
structure Peripheral where
  boot_rom : BootRom
  cartridge : Cartridge
  working_ram : Nat → Nat
  zero_page : Nat → Nat
  gpu : Gpu
  nvic : Nvic
  timer : Timer
  keypad : Keypad
  dma_cycles : Nat
  dma_start_adress : Nat
  dma_enabled : Bool

/-- Peripheral::new (src/soc/peripheral/mod.rs lines 92-107). -/
def Peripheral.new (cartridge : Cartridge) : Peripheral :=
  { boot_rom := BootRom.new
    cartridge := cartridge
    working_ram := fun _ => 0xFF
    zero_page := fun _ => 0xFF
    gpu := Gpu.new
    nvic := Nvic.new
    timer := Timer.new
    keypad := Keypad.new
    dma_cycles := 0
    dma_start_adress := 0xFFFF
    dma_enabled := false }

/-- Peripheral::read_io_register (src/soc/peripheral/mod.rs lines 143-187).
The Rust match arms are rendered in order as an if-chain; the arms that
return the same constant (sound registers and the CGB speed-switch register)
are grouped into range tests.  The fall-through `panic!` arm is `none`. -/
def Peripheral.read_io_register (p : Peripheral) (address : Nat) : Option Nat :=
  if address = 0xFF00 then some p.keypad.get
  else if address = 0xFF01 then some 0
  else if address = 0xFF02 then some 0
  else if address = 0xFF04 then some p.timer.get_divider
  else if address = 0xFF05 then some p.timer.get_value
  else if address = 0xFF06 then some p.timer.get_modulo
  else if address = 0xFF0F then some p.nvic.get_it_flag
  else if 0xFF10 ≤ address ∧ address ≤ 0xFF14 then some 0xFF
  else if 0xFF16 ≤ address ∧ address ≤ 0xFF1E then some 0xFF
  else if 0xFF20 ≤ address ∧ address ≤ 0xFF26 then some 0xFF
  else if 0xFF30 ≤ address ∧ address ≤ 0xFF3F then some 0xFF
  else if address = 0xFF40 then some p.gpu.control_to_byte
  else if address = 0xFF41 then some p.gpu.status_to_byte
  else if address = 0xFF42 then some p.gpu.get_scy
  else if address = 0xFF43 then some p.gpu.get_scx
  else if address = 0xFF44 then some p.gpu.get_current_line
  else if address = 0xFF45 then some p.gpu.get_compare_line
  else if address = 0xFF4A then some p.gpu.get_window_y
  else if address = 0xFF4B then some p.gpu.get_window_x
  else if address = 0xFF4D then some 0xFF
  else if address = 0xFF48 then some 0xFF
  else if address = 0xFF49 then some 0xFF
  else none

/-- Addresses the read_io_register match maps to a value; its complement in
0xFF00-0xFF7F reaches the `panic!` arm.  The conditions mirror the arms of
Peripheral::read_io_register one for one. -/
def ioReadHandled (address : Nat) : Bool :=
  if address = 0xFF00 then true
  else if address = 0xFF01 then true
  else if address = 0xFF02 then true
  else if address = 0xFF04 then true
  else if address = 0xFF05 then true
  else if address = 0xFF06 then true
  else if address = 0xFF0F then true
  else if 0xFF10 ≤ address ∧ address ≤ 0xFF14 then true
  else if 0xFF16 ≤ address ∧ address ≤ 0xFF1E then true
  else if 0xFF20 ≤ address ∧ address ≤ 0xFF26 then true
  else if 0xFF30 ≤ address ∧ address ≤ 0xFF3F then true
  else if address = 0xFF40 then true
  else if address = 0xFF41 then true
  else if address = 0xFF42 then true
  else if address = 0xFF43 then true
  else if address = 0xFF44 then true
  else if address = 0xFF45 then true
  else if address = 0xFF4A then true
  else if address = 0xFF4B then true
  else if address = 0xFF4D then true
  else if address = 0xFF48 then true
  else if address = 0xFF49 then true
  else false

/-- Peripheral::write_io_register (src/soc/peripheral/mod.rs lines 189-244).
Arms that ignore the data (serial, sound, wave RAM, 0xFF7F) are grouped; the
fall-through `panic!` arm is `none`.  The DMA arm latches
`(data as u16) << 8` and sets the enable flag without touching `dma_cycles`;
the 0xFF50 arm disables the boot-ROM overlay. -/
def Peripheral.write_io_register (p : Peripheral) (address data : Nat) : Option Peripheral :=
  if address = 0xFF00 then some { p with keypad := p.keypad.control data }
  else if address = 0xFF01 then some p
  else if address = 0xFF02 then some p
  else if address = 0xFF04 then some { p with timer := p.timer.set_divider }
  else if address = 0xFF05 then some { p with timer := p.timer.set_value data }
  else if address = 0xFF06 then some { p with timer := p.timer.set_modulo data }
  else if address = 0xFF07 then some { p with timer := p.timer.settings_from_byte data }
  else if address = 0xFF0F then some { p with nvic := p.nvic.set_it_flag data }
  else if 0xFF10 ≤ address ∧ address ≤ 0xFF14 then some p
  else if 0xFF16 ≤ address ∧ address ≤ 0xFF1E then some p
  else if 0xFF20 ≤ address ∧ address ≤ 0xFF26 then some p
  else if 0xFF30 ≤ address ∧ address ≤ 0xFF3F then some p
  else if address = 0xFF40 then some { p with gpu := p.gpu.control_from_byte data }
  else if address = 0xFF41 then some { p with gpu := p.gpu.status_from_byte data }
  else if address = 0xFF42 then some { p with gpu := p.gpu.set_scy data }
  else if address = 0xFF43 then some { p with gpu := p.gpu.set_scx data }
  else if address = 0xFF45 then some { p with gpu := p.gpu.set_compare_line data }
  else if address = 0xFF46 then
    some { p with dma_start_adress := (data <<< 8) % 65536, dma_enabled := true }
  else if address = 0xFF47 then some { p with gpu := p.gpu.set_background_palette data }
  else if address = 0xFF48 then some { p with gpu := p.gpu.set_object_palette_0 data }
  else if address = 0xFF49 then some { p with gpu := p.gpu.set_object_palette_1 data }
  else if address = 0xFF4A then some { p with gpu := p.gpu.set_window_y data }
  else if address = 0xFF4B then some { p with gpu := p.gpu.set_window_x data }
  else if address = 0xFF50 then some { p with boot_rom := p.boot_rom.set_state false }
  else if address = 0xFF7F then some p
  else none

/-- IoAccess::read for Peripheral (src/soc/peripheral/mod.rs lines 248-272).
The Rust match on inclusive address ranges is rendered as an ordered if-chain
over the same (disjoint) region bounds. -/
def Peripheral.read (p : Peripheral) (address : Nat) : Option Nat :=
  if address ≤ 0x3FFF then
    if address ≤ 0x00FF then
      if p.boot_rom.get_state then some (p.boot_rom.read address)
      else some (p.cartridge.read_bank_0 address)
    else some (p.cartridge.read_bank_0 address)
  else if address ≤ 0x7FFF then some (p.cartridge.read_bank_n address)
  else if address ≤ 0x9FFF then some (p.gpu.read_vram (address - 0x8000))
  else if address ≤ 0xBFFF then some (p.cartridge.read_ram address)
  else if address ≤ 0xDFFF then some (p.working_ram (address - 0xC000))
  else if address ≤ 0xFDFF then some (p.working_ram (address - 0xE000))
  else if address ≤ 0xFE9F then some (p.gpu.read_oam (address - 0xFE00))
  else if address ≤ 0xFEFF then some 0
  else if address ≤ 0xFF7F then p.read_io_register address
  else if address ≤ 0xFFFE then some (p.zero_page (address - 0xFF80))
  else some p.nvic.get_it_enable

/-- IoAccess::write for Peripheral (src/soc/peripheral/mod.rs lines 274-294),
rendered like `Peripheral.read`. -/
def Peripheral.write (p : Peripheral) (address data : Nat) : Option Peripheral :=
  if address ≤ 0x3FFF then some { p with cartridge := p.cartridge.write_bank_0 address data }
  else if address ≤ 0x7FFF then some { p with cartridge := p.cartridge.write_bank_n address data }
  else if address ≤ 0x9FFF then some { p with gpu := p.gpu.write_vram (address - 0x8000) data }
  else if address ≤ 0xBFFF then some { p with cartridge := p.cartridge.write_ram address data }
  else if address ≤ 0xDFFF then
    some { p with working_ram := fun j => if j = address - 0xC000 then data else p.working_ram j }
  else if address ≤ 0xFDFF then
    some { p with working_ram := fun j => if j = address - 0xE000 then data else p.working_ram j }
  else if address ≤ 0xFE9F then some { p with gpu := p.gpu.write_oam (address - 0xFE00) data }
  else if address ≤ 0xFEFF then some p
  else if address ≤ 0xFF7F then p.write_io_register address data
  else if address ≤ 0xFFFE then
    some { p with zero_page := fun j => if j = address - 0xFF80 then data else p.zero_page j }
  else some { p with nvic := p.nvic.set_it_enable data }

/-- Concrete cartridge used by the witnesses. -/
def C0 : Cartridge :=
  { bank0 := fun a => (a + 7) % 256, bankN := fun _ => 0x21, ram := fun _ => 0x42 }

/-- Concrete peripheral used by the witnesses. -/
def P0 : Peripheral := Peripheral.new C0

theorem or_mask_and_mask (m x : Nat) : (m ||| x) &&& m = m := by
  apply Nat.eq_of_testBit_eq
  intro i
  rw [Nat.testBit_and, Nat.testBit_or]
  cases m.testBit i <;> simp

theorem read_eq_wram (p : Peripheral) (a : Nat) (h1 : 0xC000 ≤ a) (h2 : a ≤ 0xDFFF) :
    p.read a = some (p.working_ram (a - 0xC000)) := by
  have wm1 : ¬ (a ≤ 0x3FFF) := by omega
  have wm2 : ¬ (a ≤ 0x7FFF) := by omega
  have wm3 : ¬ (a ≤ 0x9FFF) := by omega
  have wm4 : ¬ (a ≤ 0xBFFF) := by omega
  unfold Peripheral.read
  rw [if_neg wm1, if_neg wm2, if_neg wm3, if_neg wm4, if_pos h2]

theorem read_eq_echo (p : Peripheral) (a : Nat) (h1 : 0xE000 ≤ a) (h2 : a ≤ 0xFDFF) :
    p.read a = some (p.working_ram (a - 0xE000)) := by
  have em1 : ¬ (a ≤ 0x3FFF) := by omega
  have em2 : ¬ (a ≤ 0x7FFF) := by omega
  have em3 : ¬ (a ≤ 0x9FFF) := by omega
  have em4 : ¬ (a ≤ 0xBFFF) := by omega
  have em5 : ¬ (a ≤ 0xDFFF) := by omega
  unfold Peripheral.read
  rw [if_neg em1, if_neg em2, if_neg em3, if_neg em4, if_neg em5, if_pos h2]

theorem read_eq_zero_page (p : Peripheral) (a : Nat) (h1 : 0xFF80 ≤ a) (h2 : a ≤ 0xFFFE) :
    p.read a = some (p.zero_page (a - 0xFF80)) := by
  have zm1 : ¬ (a ≤ 0x3FFF) := by omega
  have zm2 : ¬ (a ≤ 0x7FFF) := by omega
  have zm3 : ¬ (a ≤ 0x9FFF) := by omega
  have zm4 : ¬ (a ≤ 0xBFFF) := by omega
  have zm5 : ¬ (a ≤ 0xDFFF) := by omega
  have zm6 : ¬ (a ≤ 0xFDFF) := by omega
  have zm7 : ¬ (a ≤ 0xFE9F) := by omega
  have zm8 : ¬ (a ≤ 0xFEFF) := by omega
  have zm9 : ¬ (a ≤ 0xFF7F) := by omega
  unfold Peripheral.read
  rw [if_neg zm1, if_neg zm2, if_neg zm3, if_neg zm4, if_neg zm5, if_neg zm6, if_neg zm7,
    if_neg zm8, if_neg zm9, if_pos h2]

theorem read_eq_io (p : Peripheral) (a : Nat) (h1 : 0xFF00 ≤ a) (h2 : a ≤ 0xFF7F) :
    p.read a = p.read_io_register a := by
  have im1 : ¬ (a ≤ 0x3FFF) := by omega
  have im2 : ¬ (a ≤ 0x7FFF) := by omega
  have im3 : ¬ (a ≤ 0x9FFF) := by omega
  have im4 : ¬ (a ≤ 0xBFFF) := by omega
  have im5 : ¬ (a ≤ 0xDFFF) := by omega
  have im6 : ¬ (a ≤ 0xFDFF) := by omega
  have im7 : ¬ (a ≤ 0xFE9F) := by omega
  have im8 : ¬ (a ≤ 0xFEFF) := by omega
  unfold Peripheral.read
  rw [if_neg im1, if_neg im2, if_neg im3, if_neg im4, if_neg im5, if_neg im6, if_neg im7,
    if_neg im8, if_pos h2]

theorem write_eq_wram (p : Peripheral) (a data : Nat) (h1 : 0xC000 ≤ a) (h2 : a ≤ 0xDFFF) :
    p.write a data =
      some { p with working_ram := fun j => if j = a - 0xC000 then data else p.working_ram j } := by
  have vm1 : ¬ (a ≤ 0x3FFF) := by omega
  have vm2 : ¬ (a ≤ 0x7FFF) := by omega
  have vm3 : ¬ (a ≤ 0x9FFF) := by omega
  have vm4 : ¬ (a ≤ 0xBFFF) := by omega
  unfold Peripheral.write
  rw [if_neg vm1, if_neg vm2, if_neg vm3, if_neg vm4, if_pos h2]

theorem write_eq_echo (p : Peripheral) (a data : Nat) (h1 : 0xE000 ≤ a) (h2 : a ≤ 0xFDFF) :
    p.write a data =
      some { p with working_ram := fun j => if j = a - 0xE000 then data else p.working_ram j } := by
  have um1 : ¬ (a ≤ 0x3FFF) := by omega
  have um2 : ¬ (a ≤ 0x7FFF) := by omega
  have um3 : ¬ (a ≤ 0x9FFF) := by omega
  have um4 : ¬ (a ≤ 0xBFFF) := by omega
  have um5 : ¬ (a ≤ 0xDFFF) := by omega
  unfold Peripheral.write
  rw [if_neg um1, if_neg um2, if_neg um3, if_neg um4, if_neg um5, if_pos h2]

/-- C5: every Echo RAM address 0xE000-0xFDFF reads the same byte as the Work
RAM address 0x2000 below it, and a write there produces the same peripheral
state as the mirrored Work RAM write. -/
theorem echo_ram_mirror (p : Peripheral) (a data : Nat)
    (h1 : 0xE000 ≤ a) (h2 : a ≤ 0xFDFF) :
    p.read a = p.read (a - 0x2000) ∧ p.write a data = p.write (a - 0x2000) data := by
  constructor
  · rw [read_eq_echo p a h1 h2, read_eq_wram p (a - 0x2000) (by omega) (by omega)]
    rw [show a - 0x2000 - 0xC000 = a - 0xE000 by omega]
  · rw [write_eq_echo p a data h1 h2, write_eq_wram p (a - 0x2000) data (by omega) (by omega)]
    rw [show a - 0x2000 - 0xC000 = a - 0xE000 by omega]

/-- Witness for C5 at address 0xE123. -/
theorem echo_ram_mirror_witness :
    P0.read 0xE123 = P0.read (0xE123 - 0x2000) ∧
    P0.write 0xE123 0xAB = P0.write (0xE123 - 0x2000) 0xAB :=
  echo_ram_mirror P0 0xE123 0xAB (by norm_num) (by norm_num)

/-- C6: in every peripheral state the IF register 0xFF0F and the IE register
0xFFFF read back with their upper three bits set. -/
theorem if_ie_upper_bits_read_as_one (p : Peripheral) :
    (∃ v, p.read 0xFF0F = some v ∧ v &&& 0xE0 = 0xE0) ∧
    (∃ v, p.read 0xFFFF = some v ∧ v &&& 0xE0 = 0xE0) := by
  constructor
  · refine ⟨p.nvic.get_it_flag, ?_, or_mask_and_mask 0xE0 p.nvic.interrupt_flag⟩
    simp [Peripheral.read, Peripheral.read_io_register]
  · refine ⟨p.nvic.get_it_enable, ?_, or_mask_and_mask 0xE0 p.nvic.interrupt_enable⟩
    simp [Peripheral.read]

/-- C9: directly after Peripheral::new, Work RAM and zero-page bytes read back
as 0xFF, the NVIC is fully cleared, the OAM DMA engine is inactive and the
boot-ROM overlay is enabled. -/
theorem peripheral_new_reset (c : Cartridge) (a b : Nat)
    (ha1 : 0xC000 ≤ a) (ha2 : a ≤ 0xDFFF) (hb1 : 0xFF80 ≤ b) (hb2 : b ≤ 0xFFFE) :
    (Peripheral.new c).read a = some 0xFF ∧
    (Peripheral.new c).read b = some 0xFF ∧
    (Peripheral.new c).nvic.interrupt_master_enable = false ∧
    (Peripheral.new c).nvic.interrupt_enable = 0 ∧
    (Peripheral.new c).nvic.interrupt_flag = 0 ∧
    (Peripheral.new c).dma_enabled = false ∧
    (Peripheral.new c).boot_rom.get_state = true := by
  refine ⟨?_, ?_, rfl, rfl, rfl, rfl, rfl⟩
  · rw [read_eq_wram (Peripheral.new c) a ha1 ha2]
    rfl
  · rw [read_eq_zero_page (Peripheral.new c) b hb1 hb2]
    rfl

/-- Witness for C9 at Work RAM address 0xC123 and zero-page address 0xFF90. -/
theorem peripheral_new_reset_witness :
    (Peripheral.new C0).read 0xC123 = some 0xFF ∧
    (Peripheral.new C0).read 0xFF90 = some 0xFF ∧
    (Peripheral.new C0).nvic.interrupt_master_enable = false ∧
    (Peripheral.new C0).nvic.interrupt_enable = 0 ∧
    (Peripheral.new C0).nvic.interrupt_flag = 0 ∧
    (Peripheral.new C0).dma_enabled = false ∧
    (Peripheral.new C0).boot_rom.get_state = true :=
  peripheral_new_reset C0 0xC123 0xFF90 (by norm_num) (by norm_num) (by norm_num) (by norm_num)

theorem read_isSome_of_not_io (p : Peripheral) (a : Nat)
    (h : ¬ (0xFF00 ≤ a ∧ a ≤ 0xFF7F)) : ∃ b, p.read a = some b := by
  unfold Peripheral.read
  by_cases h1 : a ≤ 0x3FFF
  · simp only [if_pos h1]
    by_cases h2 : a ≤ 0x00FF
    · simp only [if_pos h2]
      cases hb : p.boot_rom.get_state
      · exact ⟨_, if_neg (by simp)⟩
      · exact ⟨_, if_pos rfl⟩
    · simp only [if_neg h2]
      exact ⟨_, rfl⟩
  · simp only [if_neg h1]
    by_cases h2 : a ≤ 0x7FFF
    · simp only [if_pos h2]
      exact ⟨_, rfl⟩
    · simp only [if_neg h2]
      by_cases h3 : a ≤ 0x9FFF
      · simp only [if_pos h3]
        exact ⟨_, rfl⟩
      · simp only [if_neg h3]
        by_cases h4 : a ≤ 0xBFFF
        · simp only [if_pos h4]
          exact ⟨_, rfl⟩
        · simp only [if_neg h4]
          by_cases h5 : a ≤ 0xDFFF
          · simp only [if_pos h5]
            exact ⟨_, rfl⟩
          · simp only [if_neg h5]
            by_cases h6 : a ≤ 0xFDFF
            · simp only [if_pos h6]
              exact ⟨_, rfl⟩
            · simp only [if_neg h6]
              by_cases h7 : a ≤ 0xFE9F
              · simp only [if_pos h7]
                exact ⟨_, rfl⟩
              · simp only [if_neg h7]
                by_cases h8 : a ≤ 0xFEFF
                · simp only [if_pos h8]
                  exact ⟨_, rfl⟩
                · simp only [if_neg h8]
                  have h9 : ¬ (a ≤ 0xFF7F) := by omega
                  simp only [if_neg h9]
                  by_cases h10 : a ≤ 0xFFFE
                  · simp only [if_pos h10]
                    exact ⟨_, rfl⟩
                  · simp only [if_neg h10]
                    exact ⟨_, rfl⟩

theorem ioRead_isSome_eq (p : Peripheral) (a : Nat) :
    (p.read_io_register a).isSome = ioReadHandled a := by
  unfold Peripheral.read_io_register ioReadHandled
  simp only [apply_ite Option.isSome, Option.isSome_some, Option.isSome_none]

/-- C2 (amended): for every bus address, Peripheral::read returns a byte
unless the address lies in the I/O region 0xFF00-0xFF7F without a matching
arm in read_io_register, in which case the read reaches the panic arm
(encoded `none`); in particular reads of TAC (0xFF07), DMA (0xFF46), BGP
(0xFF47) and BOOT (0xFF50) panic, while the remaining listed I/O registers
read back a byte. -/
theorem read_totality_amended (p : Peripheral) (a : Nat) (ha : a ≤ 0xFFFF) :
    ((p.read a).isSome = true ↔ (¬ (0xFF00 ≤ a ∧ a ≤ 0xFF7F) ∨ ioReadHandled a = true)) ∧
    p.read 0xFF07 = none ∧ p.read 0xFF46 = none ∧
    p.read 0xFF47 = none ∧ p.read 0xFF50 = none := by
  refine ⟨?_, ?_, ?_, ?_, ?_⟩
  · by_cases hio : 0xFF00 ≤ a ∧ a ≤ 0xFF7F
    · have hr : p.read a = p.read_io_register a := read_eq_io p a (by omega) (by omega)
      rw [hr, ioRead_isSome_eq]
      constructor
      · intro h
        exact Or.inr h
      · rintro (h | h)
        · exact absurd hio h
        · exact h
    · constructor
      · intro _
        exact Or.inl hio
      · intro _
        obtain ⟨b, hbx⟩ := read_isSome_of_not_io p a hio
        rw [hbx]
        rfl
  · simp [Peripheral.read, Peripheral.read_io_register]
  · simp [Peripheral.read, Peripheral.read_io_register]
  · simp [Peripheral.read, Peripheral.read_io_register]
  · simp [Peripheral.read, Peripheral.read_io_register]

/-- Witness for C2 (amended) at address 0x0000 (a mapped region). -/
theorem read_totality_amended_witness :
    ((P0.read 0x0000).isSome = true ↔
      (¬ ((0xFF00 : Nat) ≤ 0x0000 ∧ (0x0000 : Nat) ≤ 0xFF7F) ∨ ioReadHandled 0x0000 = true)) ∧
    P0.read 0xFF07 = none ∧ P0.read 0xFF46 = none ∧
    P0.read 0xFF47 = none ∧ P0.read 0xFF50 = none :=
  read_totality_amended P0 0x0000 (by norm_num)

/-- Counterexample to C2 as stated: reading the TAC register 0xFF07 reaches
the panic arm of Peripheral::read_io_register (encoded `none`), although TAC
is one of the listed I/O registers the claim says reads without panicking. -/
theorem read_tac_panics : P0.read 0xFF07 = none := by
  simp [Peripheral.read, Peripheral.read_io_register]

/-- DMA copy loop inside Peripheral::run (src/soc/peripheral/mod.rs lines
116-121): `for mem_index in 0..runned_cycles { if dma_cycles + mem_index <
OAM_SIZE { data = read(dma_start_adress + (dma_cycles + mem_index) as u16);
gpu.write_oam(mem_index + dma_cycles, data) } }`.  The loop is a recursion on
the remaining iteration count with `memIndex` the loop variable; the u8 sums
carry `% 256` and the u16 address sum `% 65536`.  A read that panics aborts
the run with `none`. -/
def dmaCopy (p : Peripheral) (memIndex : Nat) : Nat → Option Peripheral
  | 0 => some p
  | rest + 1 =>
    if (p.dma_cycles + memIndex) % 256 < 160 then
      match p.read ((p.dma_start_adress + (p.dma_cycles + memIndex) % 256) % 65536) with
      | none => none
      | some data =>
        dmaCopy { p with gpu := p.gpu.write_oam ((memIndex + p.dma_cycles) % 256) data }
          (memIndex + 1) rest
    else dmaCopy p (memIndex + 1) rest

/-- Timer stage of Peripheral::run (src/soc/peripheral/mod.rs line 111):
`self.timer.run(runned_cycles, &mut self.nvic)`. -/
def Peripheral.runTimerStage (p : Peripheral) (runned_cycles : Nat) : Peripheral :=
  { p with
    timer := (p.timer.run runned_cycles p.nvic).1
    nvic := (p.timer.run runned_cycles p.nvic).2 }

/-- DMA stage of Peripheral::run (src/soc/peripheral/mod.rs lines 114-130):
when enabled, copy up to `runned_cycles` bytes, add `runned_cycles` to the u8
cycle counter, and disable the engine once the counter reaches 160
(OAM_SIZE). -/
def Peripheral.runDmaStage (p : Peripheral) (runned_cycles : Nat) : Option Peripheral :=
  if p.dma_enabled then
    match dmaCopy p 0 runned_cycles with
    | none => none
    | some pc =>
      let pc2 : Peripheral := { pc with dma_cycles := (pc.dma_cycles + runned_cycles) % 256 }
      if 160 ≤ pc2.dma_cycles then
        some { pc2 with dma_enabled := false, dma_cycles := 0 }
      else some pc2
  else some p

/-- GPU and cartridge stages of Peripheral::run (src/soc/peripheral/mod.rs
lines 133-136): `self.gpu.run(runned_cycles, &mut self.nvic)` then
`self.cartridge.run(runned_cycles)`. -/
def Peripheral.runGpuCartStage (p : Peripheral) (runned_cycles : Nat) : Peripheral :=
  { p with
    gpu := (p.gpu.run runned_cycles p.nvic).1
    nvic := (p.gpu.run runned_cycles p.nvic).2
    cartridge := p.cartridge.run runned_cycles }

/-- Peripheral::run (src/soc/peripheral/mod.rs lines 109-137): the timer
first, then the DMA engine, then the GPU and the cartridge, in source
order. -/
def Peripheral.run (p : Peripheral) (runned_cycles : Nat) : Option Peripheral :=
  match (p.runTimerStage runned_cycles).runDmaStage runned_cycles with
  | none => none
  | some p2 => some (p2.runGpuCartStage runned_cycles)

/-- Successive Peripheral::run calls, one entry per CPU instruction. -/
def Peripheral.runList (p : Peripheral) : List Nat → Option Peripheral
  | [] => some p
  | c :: cs =>
    match p.run c with
    | none => none
    | some q => q.runList cs

theorem read_low_agree (p q : Peripheral) (a : Nat)
    (hb : q.boot_rom = p.boot_rom) (hc : q.cartridge = p.cartridge)
    (hv : q.gpu.vram = p.gpu.vram) (hw : q.working_ram = p.working_ram)
    (ha : a ≤ 0xDFFF) :
    q.read a = p.read a := by
  unfold Peripheral.read Gpu.read_vram BootRom.get_state BootRom.read
    Cartridge.read_bank_0 Cartridge.read_bank_n Cartridge.read_ram
  rw [hb, hc, hv, hw]
  by_cases h1 : a ≤ 0x3FFF
  · simp only [if_pos h1]
  · simp only [if_neg h1]
    by_cases h2 : a ≤ 0x7FFF
    · simp only [if_pos h2]
    · simp only [if_neg h2]
      by_cases h3 : a ≤ 0x9FFF
      · simp only [if_pos h3]
      · simp only [if_neg h3]
        by_cases h4 : a ≤ 0xBFFF
        · simp only [if_pos h4]
        · simp only [if_neg h4]
          simp only [if_pos (show a ≤ 0xDFFF from ha)]

theorem read_low_isSome (p : Peripheral) (a : Nat) (ha : a ≤ 0xDFFF) :
    ∃ b, p.read a = some b := by
  unfold Peripheral.read
  by_cases h1 : a ≤ 0x3FFF
  · simp only [if_pos h1]
    by_cases h2 : a ≤ 0x00FF
    · simp only [if_pos h2]
      cases hb : p.boot_rom.get_state
      · exact ⟨_, if_neg (by simp)⟩
      · exact ⟨_, if_pos rfl⟩
    · simp only [if_neg h2]
      exact ⟨_, rfl⟩
  · simp only [if_neg h1]
    by_cases h2 : a ≤ 0x7FFF
    · simp only [if_pos h2]
      exact ⟨_, rfl⟩
    · simp only [if_neg h2]
      by_cases h3 : a ≤ 0x9FFF
      · simp only [if_pos h3]
        exact ⟨_, rfl⟩
      · simp only [if_neg h3]
        by_cases h4 : a ≤ 0xBFFF
        · simp only [if_pos h4]
          exact ⟨_, rfl⟩
        · simp only [if_neg h4]
          simp only [if_pos (show a ≤ 0xDFFF from ha)]
          exact ⟨_, rfl⟩

theorem dmaCopy_spec (rest : Nat) : ∀ (p : Peripheral) (memIndex : Nat),
    p.dma_start_adress ≤ 0xDF00 →
    p.dma_cycles + memIndex + rest ≤ 160 →
    ∃ q, dmaCopy p memIndex rest = some q ∧
      q.boot_rom = p.boot_rom ∧ q.cartridge = p.cartridge ∧
      q.gpu.vram = p.gpu.vram ∧ q.working_ram = p.working_ram ∧
      q.zero_page = p.zero_page ∧ q.dma_cycles = p.dma_cycles ∧
      q.dma_start_adress = p.dma_start_adress ∧ q.dma_enabled = p.dma_enabled ∧
      (∀ i, p.dma_cycles + memIndex ≤ i → i < p.dma_cycles + memIndex + rest →
        some (q.gpu.oam i) = p.read (p.dma_start_adress + i)) ∧
      (∀ i, i < p.dma_cycles + memIndex ∨ p.dma_cycles + memIndex + rest ≤ i →
        q.gpu.oam i = p.gpu.oam i) := by
  induction rest with
  | zero =>
    intro p m _hb hlt
    refine ⟨p, rfl, rfl, rfl, rfl, rfl, rfl, rfl, rfl, rfl, ?_, ?_⟩
    · intro i hi1 hi2
      omega
    · intro i _hi
      rfl
  | succ rest ih =>
    intro p m hb hlt
    have hm1 : (p.dma_cycles + m) % 256 = p.dma_cycles + m := Nat.mod_eq_of_lt (by omega)
    have hm2 : (m + p.dma_cycles) % 256 = m + p.dma_cycles := Nat.mod_eq_of_lt (by omega)
    have hm3 : (p.dma_start_adress + (p.dma_cycles + m)) % 65536 =
        p.dma_start_adress + (p.dma_cycles + m) := Nat.mod_eq_of_lt (by omega)
    obtain ⟨data, hdata⟩ :=
      read_low_isSome p (p.dma_start_adress + (p.dma_cycles + m)) (by omega)
    obtain ⟨q, hq, e1, e2, e3, e4, e5, e6, e7, e8, h9, h10⟩ :=
      ih { p with gpu := p.gpu.write_oam ((m + p.dma_cycles) % 256) data } (m + 1)
        hb (show p.dma_cycles + (m + 1) + rest ≤ 160 by omega)
    refine ⟨q, ?_, e1, e2, e3, e4, e5, e6, e7, e8, ?_, ?_⟩
    · simp only [dmaCopy]
      rw [if_pos (show (p.dma_cycles + m) % 256 < 160 by omega)]
      rw [hm1, hm3, hdata]
      exact hq
    · intro i hi1 hi2
      rcases Nat.eq_or_lt_of_le hi1 with hi | hi
      · have hoam := h10 i (show i < p.dma_cycles + (m + 1) ∨
          p.dma_cycles + (m + 1) + rest ≤ i by omega)
        rw [hoam]
        show (if i = (m + p.dma_cycles) % 256 then data else p.gpu.oam i) =
          p.read (p.dma_start_adress + i)
        rw [if_pos (by omega), ← hi]
        exact hdata.symm
      · have hs := h9 i (show p.dma_cycles + (m + 1) ≤ i by omega)
          (show i < p.dma_cycles + (m + 1) + rest by omega)
        rw [hs]
        exact read_low_agree p _ (p.dma_start_adress + i) rfl rfl rfl rfl (by omega)
    · intro i hi
      have hoam := h10 i (show i < p.dma_cycles + (m + 1) ∨
        p.dma_cycles + (m + 1) + rest ≤ i by omega)
      rw [hoam]
      show (if i = (m + p.dma_cycles) % 256 then data else p.gpu.oam i) = p.gpu.oam i
      rw [if_neg (by omega)]

theorem runDmaStage_spec (p : Peripheral) (c : Nat)
    (he : p.dma_enabled = true) (hb : p.dma_start_adress ≤ 0xDF00)
    (hc : p.dma_cycles + c ≤ 160) :
    ∃ q, p.runDmaStage c = some q ∧
      q.boot_rom = p.boot_rom ∧ q.cartridge = p.cartridge ∧
      q.gpu.vram = p.gpu.vram ∧ q.working_ram = p.working_ram ∧
      q.zero_page = p.zero_page ∧ q.dma_start_adress = p.dma_start_adress ∧
      (∀ i, p.dma_cycles ≤ i → i < p.dma_cycles + c →
        some (q.gpu.oam i) = p.read (p.dma_start_adress + i)) ∧
      (∀ i, i < p.dma_cycles ∨ p.dma_cycles + c ≤ i → q.gpu.oam i = p.gpu.oam i) ∧
      (p.dma_cycles + c < 160 → q.dma_cycles = p.dma_cycles + c ∧ q.dma_enabled = true) ∧
      (p.dma_cycles + c = 160 → q.dma_cycles = 0 ∧ q.dma_enabled = false) := by
  obtain ⟨pc, hpc, e1, e2, e3, e4, e5, e6, e7, e8, h9, h10⟩ :=
    dmaCopy_spec c p 0 hb (by omega)
  have hmod : (pc.dma_cycles + c) % 256 = p.dma_cycles + c := by
    rw [e6]
    exact Nat.mod_eq_of_lt (by omega)
  rcases Nat.lt_or_ge (p.dma_cycles + c) 160 with hl | hg
  · refine ⟨{ pc with dma_cycles := (pc.dma_cycles + c) % 256 }, ?_, e1, e2, e3, e4, e5, e7,
      ?_, ?_, ?_, ?_⟩
    · unfold Peripheral.runDmaStage
      rw [if_pos he, hpc]
      dsimp only
      rw [hmod]
      rw [if_neg (show ¬ 160 ≤ p.dma_cycles + c by omega)]
    · intro i hi1 hi2
      exact h9 i (by omega) (by omega)
    · intro i hi
      exact h10 i (by omega)
    · intro _
      exact ⟨hmod, e8.trans he⟩
    · intro h160
      exact absurd h160 (by omega)
  · have h160 : p.dma_cycles + c = 160 := by omega
    refine ⟨{ pc with dma_cycles := 0, dma_enabled := false }, ?_, e1, e2, e3, e4, e5, e7,
      ?_, ?_, ?_, ?_⟩
    · unfold Peripheral.runDmaStage
      rw [if_pos he, hpc]
      dsimp only
      rw [hmod]
      rw [if_pos (show 160 ≤ p.dma_cycles + c by omega)]
    · intro i hi1 hi2
      exact h9 i (by omega) (by omega)
    · intro i hi
      exact h10 i (by omega)
    · intro hl2
      exact absurd hl2 (by omega)
    · intro _
      exact ⟨rfl, rfl⟩

theorem run_dma_step (p : Peripheral) (c : Nat)
    (he : p.dma_enabled = true) (hb : p.dma_start_adress ≤ 0xDF00)
    (hc : p.dma_cycles + c ≤ 160) :
    ∃ q, p.run c = some q ∧
      q.boot_rom = p.boot_rom ∧ q.cartridge = p.cartridge ∧
      q.gpu.vram = p.gpu.vram ∧ q.working_ram = p.working_ram ∧
      q.zero_page = p.zero_page ∧ q.dma_start_adress = p.dma_start_adress ∧
      (∀ i, p.dma_cycles ≤ i → i < p.dma_cycles + c →
        some (q.gpu.oam i) = p.read (p.dma_start_adress + i)) ∧
      (∀ i, i < p.dma_cycles ∨ p.dma_cycles + c ≤ i → q.gpu.oam i = p.gpu.oam i) ∧
      (p.dma_cycles + c < 160 → q.dma_cycles = p.dma_cycles + c ∧ q.dma_enabled = true) ∧
      (p.dma_cycles + c = 160 → q.dma_cycles = 0 ∧ q.dma_enabled = false) := by
  obtain ⟨q1, hq1, e1, e2, e3, e4, e5, e7, h9, h10, hd1, hd2⟩ :=
    runDmaStage_spec (p.runTimerStage c) c he hb hc
  refine ⟨q1.runGpuCartStage c, ?_, e1, e2, e3, e4, e5, e7, ?_, ?_, hd1, hd2⟩
  · unfold Peripheral.run
    rw [hq1]
  · intro i hi1 hi2
    have h := h9 i hi1 hi2
    have hagree := read_low_agree p (p.runTimerStage c) (p.dma_start_adress + i)
      rfl rfl rfl rfl (by omega)
    exact h.trans hagree
  · intro i hi
    exact h10 i hi

theorem run_disabled (p : Peripheral) (c : Nat) (he : p.dma_enabled = false) :
    ∃ q, p.run c = some q ∧
      q.boot_rom = p.boot_rom ∧ q.cartridge = p.cartridge ∧
      q.gpu.vram = p.gpu.vram ∧ q.working_ram = p.working_ram ∧
      q.zero_page = p.zero_page ∧ q.dma_start_adress = p.dma_start_adress ∧
      q.gpu.oam = p.gpu.oam ∧ q.dma_cycles = p.dma_cycles ∧ q.dma_enabled = false := by
  refine ⟨(p.runTimerStage c).runGpuCartStage c, ?_, rfl, rfl, rfl, rfl, rfl, rfl, rfl, rfl, he⟩
  have hstage : (p.runTimerStage c).runDmaStage c = some (p.runTimerStage c) := by
    unfold Peripheral.runDmaStage
    rw [if_neg (show ¬ ((p.runTimerStage c).dma_enabled = true) from by
      show ¬ (p.dma_enabled = true)
      simp [he])]
  unfold Peripheral.run
  rw [hstage]

theorem runList_disabled (cs : List Nat) : ∀ p : Peripheral, p.dma_enabled = false →
    ∃ q, p.runList cs = some q ∧
      q.boot_rom = p.boot_rom ∧ q.cartridge = p.cartridge ∧
      q.gpu.vram = p.gpu.vram ∧ q.working_ram = p.working_ram ∧
      q.zero_page = p.zero_page ∧ q.dma_start_adress = p.dma_start_adress ∧
      q.gpu.oam = p.gpu.oam ∧ q.dma_cycles = p.dma_cycles ∧ q.dma_enabled = false := by
  induction cs with
  | nil =>
    intro p he
    exact ⟨p, rfl, rfl, rfl, rfl, rfl, rfl, rfl, rfl, rfl, he⟩
  | cons c cs ih =>
    intro p he
    obtain ⟨q1, hq1, a1, a2, a3, a4, a5, a6, a7, a8, a9⟩ := run_disabled p c he
    obtain ⟨q, hq, b1, b2, b3, b4, b5, b6, b7, b8, b9⟩ := ih q1 a9
    refine ⟨q, ?_, b1.trans a1, b2.trans a2, b3.trans a3, b4.trans a4, b5.trans a5,
      b6.trans a6, b7.trans a7, b8.trans a8, b9⟩
    show (match p.run c with
      | none => none
      | some q2 => q2.runList cs) = some q
    rw [hq1]
    exact hq

theorem runList_dma_spec (cs : List Nat) : ∀ p : Peripheral,
    p.dma_enabled = true → p.dma_start_adress ≤ 0xDF00 →
    p.dma_cycles < 160 → p.dma_cycles + cs.sum ≤ 160 →
    ∃ q, p.runList cs = some q ∧
      q.boot_rom = p.boot_rom ∧ q.cartridge = p.cartridge ∧
      q.gpu.vram = p.gpu.vram ∧ q.working_ram = p.working_ram ∧
      q.zero_page = p.zero_page ∧ q.dma_start_adress = p.dma_start_adress ∧
      (∀ i, p.dma_cycles ≤ i → i < p.dma_cycles + cs.sum →
        some (q.gpu.oam i) = p.read (p.dma_start_adress + i)) ∧
      (∀ i, i < p.dma_cycles ∨ p.dma_cycles + cs.sum ≤ i → q.gpu.oam i = p.gpu.oam i) ∧
      (p.dma_cycles + cs.sum < 160 →
        q.dma_cycles = p.dma_cycles + cs.sum ∧ q.dma_enabled = true) ∧
      (p.dma_cycles + cs.sum = 160 → q.dma_cycles = 0 ∧ q.dma_enabled = false) := by
  induction cs with
  | nil =>
    intro p he _hb hlt160 _hsum
    simp only [List.sum_nil]
    refine ⟨p, rfl, rfl, rfl, rfl, rfl, rfl, rfl, ?_, ?_, ?_, ?_⟩
    · intro i hi1 hi2
      omega
    · intro i _hi
      rfl
    · intro _
      exact ⟨by omega, he⟩
    · intro hx
      exact absurd hx (by omega)
  | cons c cs ih =>
    intro p he hb hlt160 hsum
    simp only [List.sum_cons] at hsum ⊢
    have hcc : p.dma_cycles + c ≤ 160 := by omega
    obtain ⟨q1, hq1, a1, a2, a3, a4, a5, a6, a9, a10, ad1, ad2⟩ := run_dma_step p c he hb hcc
    rcases Nat.lt_or_ge (p.dma_cycles + c) 160 with hl | hg
    · obtain ⟨hc1, hc2⟩ := ad1 hl
      obtain ⟨q, hq, b1, b2, b3, b4, b5, b6, b9, b10, bd1, bd2⟩ :=
        ih q1 hc2 (by rw [a6]; exact hb) (by omega) (by omega)
      refine ⟨q, ?_, b1.trans a1, b2.trans a2, b3.trans a3, b4.trans a4, b5.trans a5,
        b6.trans a6, ?_, ?_, ?_, ?_⟩
      · show (match p.run c with
          | none => none
          | some q2 => q2.runList cs) = some q
        rw [hq1]
        exact hq
      · intro i hi1 hi2
        rcases Nat.lt_or_ge i (p.dma_cycles + c) with hi | hi
        · have e := b10 i (Or.inl (by omega))
          rw [e]
          exact a9 i hi1 hi
        · have e := b9 i (by omega) (by omega)
          rw [e]
          have hx : q1.read (q1.dma_start_adress + i) = p.read (p.dma_start_adress + i) := by
            rw [a6]
            exact read_low_agree p q1 (p.dma_start_adress + i) a1 a2 a3 a4 (by omega)
          exact hx
      · intro i hi
        rcases hi with hi | hi
        · have e := b10 i (Or.inl (by omega))
          rw [e]
          exact a10 i (Or.inl hi)
        · have e := b10 i (Or.inr (by omega))
          rw [e]
          exact a10 i (Or.inr (by omega))
      · intro hx
        obtain ⟨u1, u2⟩ := bd1 (by omega)
        exact ⟨by omega, u2⟩
      · intro hx
        exact bd2 (by omega)
    · have h160 : p.dma_cycles + c = 160 := by omega
      obtain ⟨hz1, hz2⟩ := ad2 h160
      obtain ⟨q, hq, b1, b2, b3, b4, b5, b6, b7, b8, b9⟩ := runList_disabled cs q1 hz2
      refine ⟨q, ?_, b1.trans a1, b2.trans a2, b3.trans a3, b4.trans a4, b5.trans a5,
        b6.trans a6, ?_, ?_, ?_, ?_⟩
      · show (match p.run c with
          | none => none
          | some q2 => q2.runList cs) = some q
        rw [hq1]
        exact hq
      · intro i hi1 hi2
        rw [congrFun b7 i]
        exact a9 i hi1 (by omega)
      · intro i hi
        rw [congrFun b7 i]
        rcases hi with hi | hi
        · exact a10 i (Or.inl hi)
        · exact a10 i (Or.inr (by omega))
      · intro hx
        exact absurd hx (by omega)
      · intro _
        exact ⟨b8.trans hz1, b9⟩

theorem write_ff46 (p : Peripheral) (V : Nat) :
    p.write 0xFF46 V =
      some { p with dma_start_adress := (V <<< 8) % 65536, dma_enabled := true } := by
  simp [Peripheral.write, Peripheral.write_io_register]

theorem shiftLeft8_mod (V : Nat) (hV : V ≤ 0xDF) : (V <<< 8) % 65536 = V * 256 := by
  rw [Nat.shiftLeft_eq]
  have h : V * 2 ^ 8 = V * 256 := by norm_num
  rw [h]
  exact Nat.mod_eq_of_lt (by omega)

/-- C3: after a write of V to 0xFF46 in a state with the DMA cycle counter at
0, running the bus for any cycle counts totalling t ≤ 160 copies exactly the
first t bytes of the source page V<<8 into OAM (each call copying up to its
cycle count and advancing the counter by it): OAM bytes below t hold the bus
bytes at (V<<8)+i, OAM bytes from t on are untouched, and the engine stays
active with counter t until the total reaches exactly 160, at which point
every OAM byte matches the source and the active flag and counter clear.
The hypothesis V ≤ 0xDF keeps the source range inside the ROM/RAM regions,
as on hardware (a source in I/O space would hit the read panic arm). -/
theorem dma_transfer (p : Peripheral) (V t : Nat) (cs : List Nat)
    (h0 : p.dma_cycles = 0) (hV : V ≤ 0xDF) (hsum : cs.sum = t) (ht : t ≤ 160) :
    ∃ p1 q, p.write 0xFF46 V = some p1 ∧ p1.runList cs = some q ∧
      (∀ i, i < t → some (q.gpu.oam i) = p.read (V * 256 + i)) ∧
      (∀ i, t ≤ i → q.gpu.oam i = p.gpu.oam i) ∧
      (t < 160 → q.dma_cycles = t ∧ q.dma_enabled = true) ∧
      (t = 160 → q.dma_cycles = 0 ∧ q.dma_enabled = false) := by
  have hw := write_ff46 p V
  have hsh : (V <<< 8) % 65536 = V * 256 := shiftLeft8_mod V hV
  obtain ⟨q, hq, b1, b2, b3, b4, b5, b6, b9, b10, bd1, bd2⟩ :=
    runList_dma_spec cs { p with dma_start_adress := (V <<< 8) % 65536, dma_enabled := true }
      rfl (show (V <<< 8) % 65536 ≤ 0xDF00 by omega)
      (show p.dma_cycles < 160 by omega) (show p.dma_cycles + cs.sum ≤ 160 by omega)
  refine ⟨_, q, hw, hq, ?_, ?_, ?_, ?_⟩
  · intro i hi
    have e := b9 i (show p.dma_cycles ≤ i by omega) (show i < p.dma_cycles + cs.sum by omega)
    rw [e]
    have ha : ((V <<< 8) % 65536) + i = V * 256 + i := by rw [hsh]
    show Peripheral.read _ (((V <<< 8) % 65536) + i) = p.read (V * 256 + i)
    rw [ha]
    exact read_low_agree p _ (V * 256 + i) rfl rfl rfl rfl (by omega)
  · intro i hi
    exact b10 i (Or.inr (show p.dma_cycles + cs.sum ≤ i by omega))
  · intro hx
    obtain ⟨u1, u2⟩ := bd1 (show p.dma_cycles + cs.sum < 160 by omega)
    have u1x : q.dma_cycles = p.dma_cycles + cs.sum := u1
    exact ⟨by omega, u2⟩
  · intro hx
    exact bd2 (show p.dma_cycles + cs.sum = 160 by omega)

/-- Witness for C3: from the reset state, write source page 0xC0 and run a
single call of 160 cycles. -/
theorem dma_transfer_witness :
    ∃ p1 q, P0.write 0xFF46 0xC0 = some p1 ∧ p1.runList [160] = some q ∧
      (∀ i, i < 160 → some (q.gpu.oam i) = P0.read (0xC0 * 256 + i)) ∧
      (∀ i, 160 ≤ i → q.gpu.oam i = P0.gpu.oam i) ∧
      (160 < 160 → q.dma_cycles = 160 ∧ q.dma_enabled = true) ∧
      (160 = 160 → q.dma_cycles = 0 ∧ q.dma_enabled = false) :=
  dma_transfer P0 0xC0 160 [160] rfl (by norm_num) rfl (by norm_num)

/-- C10: a write of V to 0xFF46 while a transfer is underway (counter t with
0 < t < 160) does not restart the transfer: the cycle counter keeps its
value t, only the base is replaced, and after the remaining 160 - t cycles
the OAM bytes from position t on come from the new base V<<8 at the same
offsets while the bytes below t keep whatever the earlier transfer wrote. -/
theorem dma_no_restart_midway (p : Peripheral) (V t : Nat) (cs : List Nat)
    (he : p.dma_enabled = true) (ht0 : p.dma_cycles = t) (h1 : 0 < t) (h2 : t < 160)
    (hV : V ≤ 0xDF) (hsum : cs.sum = 160 - t) :
    ∃ p1 q, p.write 0xFF46 V = some p1 ∧ p1.dma_cycles = t ∧
      p1.dma_start_adress = (V <<< 8) % 65536 ∧ p1.runList cs = some q ∧
      (∀ i, t ≤ i → i < 160 → some (q.gpu.oam i) = p.read (V * 256 + i)) ∧
      (∀ i, i < t → q.gpu.oam i = p.gpu.oam i) ∧
      q.dma_enabled = false ∧ q.dma_cycles = 0 := by
  have hw := write_ff46 p V
  have hsh : (V <<< 8) % 65536 = V * 256 := shiftLeft8_mod V hV
  obtain ⟨q, hq, b1, b2, b3, b4, b5, b6, b9, b10, bd1, bd2⟩ :=
    runList_dma_spec cs { p with dma_start_adress := (V <<< 8) % 65536, dma_enabled := true }
      rfl (show (V <<< 8) % 65536 ≤ 0xDF00 by omega)
      (show p.dma_cycles < 160 by omega) (show p.dma_cycles + cs.sum ≤ 160 by omega)
  refine ⟨_, q, hw, ht0, rfl, hq, ?_, ?_, ?_, ?_⟩
  · intro i hi1 hi2
    have e := b9 i (show p.dma_cycles ≤ i by omega) (show i < p.dma_cycles + cs.sum by omega)
    rw [e]
    have ha : ((V <<< 8) % 65536) + i = V * 256 + i := by rw [hsh]
    show Peripheral.read _ (((V <<< 8) % 65536) + i) = p.read (V * 256 + i)
    rw [ha]
    exact read_low_agree p _ (V * 256 + i) rfl rfl rfl rfl (by omega)
  · intro i hi
    exact b10 i (Or.inl (show i < p.dma_cycles by omega))
  · exact (bd2 (show p.dma_cycles + cs.sum = 160 by omega)).2
  · exact (bd2 (show p.dma_cycles + cs.sum = 160 by omega)).1

/-- Witness for C10: a transfer from page 0xC0 has copied 32 bytes when the
base is switched to page 0xD0; the remaining 128 bytes come from the new
base at offsets 32-159 while bytes 0-31 stay. -/
theorem dma_no_restart_midway_witness :
    ∃ p1 q, ({ P0 with
        dma_enabled := true
        dma_cycles := 32
        dma_start_adress := 0xC000 } : Peripheral).write 0xFF46 0xD0 = some p1 ∧
      p1.dma_cycles = 32 ∧ p1.dma_start_adress = (0xD0 <<< 8) % 65536 ∧
      p1.runList [128] = some q ∧
      (∀ i, 32 ≤ i → i < 160 → some (q.gpu.oam i) =
        ({ P0 with
          dma_enabled := true
          dma_cycles := 32
          dma_start_adress := 0xC000 } : Peripheral).read (0xD0 * 256 + i)) ∧
      (∀ i, i < 32 → q.gpu.oam i =
        ({ P0 with
          dma_enabled := true
          dma_cycles := 32
          dma_start_adress := 0xC000 } : Peripheral).gpu.oam i) ∧
      q.dma_enabled = false ∧ q.dma_cycles = 0 :=
  dma_no_restart_midway
    { P0 with dma_enabled := true, dma_cycles := 32, dma_start_adress := 0xC000 }
    0xD0 32 [128] rfl rfl (by norm_num) (by norm_num) (by norm_num) rfl

theorem dmaCopy_boot (rest : Nat) : ∀ (p : Peripheral) (memIndex : Nat) (q : Peripheral),
    dmaCopy p memIndex rest = some q → q.boot_rom = p.boot_rom := by
  induction rest with
  | zero =>
    intro p m q h
    simp only [dmaCopy] at h
    injection h with h
    rw [← h]
  | succ rest ih =>
    intro p m q h
    simp only [dmaCopy] at h
    split at h
    · split at h
      · exact absurd h (by simp)
      · have hx := ih _ _ _ h
        exact hx
    · have hx := ih _ _ _ h
      exact hx

theorem runDmaStage_boot (p q : Peripheral) (c : Nat) (h : p.runDmaStage c = some q) :
    q.boot_rom = p.boot_rom := by
  unfold Peripheral.runDmaStage at h
  split at h
  · split at h
    · exact absurd h (by simp)
    · rename_i pc heq
      dsimp only at h
      split at h
      · injection h with h
        rw [← h]
        exact dmaCopy_boot c p 0 pc heq
      · injection h with h
        rw [← h]
        exact dmaCopy_boot c p 0 pc heq
  · injection h with h
    rw [← h]

theorem run_boot_state (p q : Peripheral) (c : Nat) (h : p.run c = some q) :
    q.boot_rom = p.boot_rom := by
  unfold Peripheral.run at h
  split at h
  · exact absurd h (by simp)
  · rename_i p2 heq
    injection h with h
    rw [← h]
    exact runDmaStage_boot (p.runTimerStage c) p2 c heq

theorem write_io_boot_state (p q : Peripheral) (address d : Nat)
    (h : p.write_io_register address d = some q)
    (hp : p.boot_rom.get_state = false) : q.boot_rom.get_state = false := by
  unfold Peripheral.write_io_register at h
  by_cases h0 : address = 0xFF00
  · rw [if_pos h0] at h
    injection h with h
    rw [← h]
    exact hp
  · rw [if_neg h0] at h
    by_cases h1 : address = 0xFF01
    · rw [if_pos h1] at h
      injection h with h
      rw [← h]
      exact hp
    · rw [if_neg h1] at h
      by_cases h2 : address = 0xFF02
      · rw [if_pos h2] at h
        injection h with h
        rw [← h]
        exact hp
      · rw [if_neg h2] at h
        by_cases h3 : address = 0xFF04
        · rw [if_pos h3] at h
          injection h with h
          rw [← h]
          exact hp
        · rw [if_neg h3] at h
          by_cases h4 : address = 0xFF05
          · rw [if_pos h4] at h
            injection h with h
            rw [← h]
            exact hp
          · rw [if_neg h4] at h
            by_cases h5 : address = 0xFF06
            · rw [if_pos h5] at h
              injection h with h
              rw [← h]
              exact hp
            · rw [if_neg h5] at h
              by_cases h6 : address = 0xFF07
              · rw [if_pos h6] at h
                injection h with h
                rw [← h]
                exact hp
              · rw [if_neg h6] at h
                by_cases h7 : address = 0xFF0F
                · rw [if_pos h7] at h
                  injection h with h
                  rw [← h]
                  exact hp
                · rw [if_neg h7] at h
                  by_cases h8 : 0xFF10 ≤ address ∧ address ≤ 0xFF14
                  · rw [if_pos h8] at h
                    injection h with h
                    rw [← h]
                    exact hp
                  · rw [if_neg h8] at h
                    by_cases h9 : 0xFF16 ≤ address ∧ address ≤ 0xFF1E
                    · rw [if_pos h9] at h
                      injection h with h
                      rw [← h]
                      exact hp
                    · rw [if_neg h9] at h
                      by_cases h10 : 0xFF20 ≤ address ∧ address ≤ 0xFF26
                      · rw [if_pos h10] at h
                        injection h with h
                        rw [← h]
                        exact hp
                      · rw [if_neg h10] at h
                        by_cases h11 : 0xFF30 ≤ address ∧ address ≤ 0xFF3F
                        · rw [if_pos h11] at h
                          injection h with h
                          rw [← h]
                          exact hp
                        · rw [if_neg h11] at h
                          by_cases h12 : address = 0xFF40
                          · rw [if_pos h12] at h
                            injection h with h
                            rw [← h]
                            exact hp
                          · rw [if_neg h12] at h
                            by_cases h13 : address = 0xFF41
                            · rw [if_pos h13] at h
                              injection h with h
                              rw [← h]
                              exact hp
                            · rw [if_neg h13] at h
                              by_cases h14 : address = 0xFF42
                              · rw [if_pos h14] at h
                                injection h with h
                                rw [← h]
                                exact hp
                              · rw [if_neg h14] at h
                                by_cases h15 : address = 0xFF43
                                · rw [if_pos h15] at h
                                  injection h with h
                                  rw [← h]
                                  exact hp
                                · rw [if_neg h15] at h
                                  by_cases h16 : address = 0xFF45
                                  · rw [if_pos h16] at h
                                    injection h with h
                                    rw [← h]
                                    exact hp
                                  · rw [if_neg h16] at h
                                    by_cases h17 : address = 0xFF46
                                    · rw [if_pos h17] at h
                                      injection h with h
                                      rw [← h]
                                      exact hp
                                    · rw [if_neg h17] at h
                                      by_cases h18 : address = 0xFF47
                                      · rw [if_pos h18] at h
                                        injection h with h
                                        rw [← h]
                                        exact hp
                                      · rw [if_neg h18] at h
                                        by_cases h19 : address = 0xFF48
                                        · rw [if_pos h19] at h
                                          injection h with h
                                          rw [← h]
                                          exact hp
                                        · rw [if_neg h19] at h
                                          by_cases h20 : address = 0xFF49
                                          · rw [if_pos h20] at h
                                            injection h with h
                                            rw [← h]
                                            exact hp
                                          · rw [if_neg h20] at h
                                            by_cases h21 : address = 0xFF4A
                                            · rw [if_pos h21] at h
                                              injection h with h
                                              rw [← h]
                                              exact hp
                                            · rw [if_neg h21] at h
                                              by_cases h22 : address = 0xFF4B
                                              · rw [if_pos h22] at h
                                                injection h with h
                                                rw [← h]
                                                exact hp
                                              · rw [if_neg h22] at h
                                                by_cases h23 : address = 0xFF50
                                                · rw [if_pos h23] at h
                                                  injection h with h
                                                  rw [← h]
                                                  rfl
                                                · rw [if_neg h23] at h
                                                  by_cases h24 : address = 0xFF7F
                                                  · rw [if_pos h24] at h
                                                    injection h with h
                                                    rw [← h]
                                                    exact hp
                                                  · rw [if_neg h24] at h
                                                    exact absurd h (by simp)

theorem write_boot_state (p q : Peripheral) (a d : Nat) (h : p.write a d = some q)
    (hp : p.boot_rom.get_state = false) : q.boot_rom.get_state = false := by
  unfold Peripheral.write at h
  by_cases h0 : a ≤ 0x3FFF
  · rw [if_pos h0] at h
    injection h with h
    rw [← h]
    exact hp
  · rw [if_neg h0] at h
    by_cases h1 : a ≤ 0x7FFF
    · rw [if_pos h1] at h
      injection h with h
      rw [← h]
      exact hp
    · rw [if_neg h1] at h
      by_cases h2 : a ≤ 0x9FFF
      · rw [if_pos h2] at h
        injection h with h
        rw [← h]
        exact hp
      · rw [if_neg h2] at h
        by_cases h3 : a ≤ 0xBFFF
        · rw [if_pos h3] at h
          injection h with h
          rw [← h]
          exact hp
        · rw [if_neg h3] at h
          by_cases h4 : a ≤ 0xDFFF
          · rw [if_pos h4] at h
            injection h with h
            rw [← h]
            exact hp
          · rw [if_neg h4] at h
            by_cases h5 : a ≤ 0xFDFF
            · rw [if_pos h5] at h
              injection h with h
              rw [← h]
              exact hp
            · rw [if_neg h5] at h
              by_cases h6 : a ≤ 0xFE9F
              · rw [if_pos h6] at h
                injection h with h
                rw [← h]
                exact hp
              · rw [if_neg h6] at h
                by_cases h7 : a ≤ 0xFEFF
                · rw [if_pos h7] at h
                  injection h with h
                  rw [← h]
                  exact hp
                · rw [if_neg h7] at h
                  by_cases h8 : a ≤ 0xFF7F
                  · rw [if_pos h8] at h
                    exact write_io_boot_state p q a d h hp
                  · rw [if_neg h8] at h
                    by_cases h9 : a ≤ 0xFFFE
                    · rw [if_pos h9] at h
                      injection h with h
                      rw [← h]
                      exact hp
                    · rw [if_neg h9] at h
                      injection h with h
                      rw [← h]
                      exact hp

/-- States reachable from a peripheral state through its public mutating
operations: bus writes, bus runs, interrupt dispatch (Nvic::get_interrupt via
the Interrupt trait) and master-enable updates. -/
inductive Reaches : Peripheral → Peripheral → Prop
  | refl (p : Peripheral) : Reaches p p
  | write (p q r : Peripheral) (a d : Nat) :
      p.write a d = some q → Reaches q r → Reaches p r
  | run (p q r : Peripheral) (c : Nat) :
      p.run c = some q → Reaches q r → Reaches p r
  | get_int (p r : Peripheral) :
      Reaches { p with nvic := (p.nvic.get_interrupt).2 } r → Reaches p r
  | master (p r : Peripheral) (b : Bool) :
      Reaches { p with nvic := p.nvic.master_enable b } r → Reaches p r

theorem reaches_boot_disabled (p r : Peripheral) (h : Reaches p r)
    (hp : p.boot_rom.get_state = false) : r.boot_rom.get_state = false := by
  induction h with
  | refl p => exact hp
  | write p q r a d hw _ ih => exact ih (write_boot_state p q a d hw hp)
  | run p q r c hr _ ih =>
    refine ih ?_
    rw [run_boot_state p q c hr]
    exact hp
  | get_int p r _ ih => exact ih hp
  | master p r b _ ih => exact ih hp

/-- C4: once 0xFF50 has been written with any value, in every state reachable
afterwards the boot-ROM overlay flag stays off and every read of an address
in 0x0000-0x00FF returns the cartridge bank-0 byte, never a boot-ROM byte. -/
theorem boot_rom_latch (p q r : Peripheral) (d a : Nat)
    (hw : p.write 0xFF50 d = some q) (hr : Reaches q r) (ha : a ≤ 0xFF) :
    r.boot_rom.get_state = false ∧ r.read a = some (r.cartridge.read_bank_0 a) := by
  have hq : q.boot_rom.get_state = false := by
    have hwe : p.write 0xFF50 d =
        some { p with boot_rom := p.boot_rom.set_state false } := by
      simp [Peripheral.write, Peripheral.write_io_register]
    rw [hw] at hwe
    injection hwe with hwe
    rw [hwe]
    rfl
  have hrf := reaches_boot_disabled q r hr hq
  refine ⟨hrf, ?_⟩
  unfold Peripheral.read
  rw [if_pos (show a ≤ 0x3FFF by omega), if_pos (show a ≤ 0x00FF by omega)]
  rw [if_neg (show ¬ (r.boot_rom.get_state = true) by simp [hrf])]

/-- Peripheral state directly after writing 0xFF50 on the reset state. -/
def Q0 : Peripheral :=
  match P0.write 0xFF50 1 with
  | some q => q
  | none => P0

/-- Witness for C4: after the 0xFF50 write on the reset state, address 0x0000
reads the cartridge bank-0 byte. -/
theorem boot_rom_latch_witness :
    Q0.boot_rom.get_state = false ∧ Q0.read 0 = some (Q0.cartridge.read_bank_0 0) :=
  boot_rom_latch P0 Q0 Q0 1 0 rfl (Reaches.refl Q0) (by norm_num)

/-- Modelled from the spec: struct Soc (src/soc/mod.rs is not among the
included sources).  Spec §4.7: `run()` executes one CPU instruction or one
interrupt dispatch and returns its machine-cycle count.  The CPU is an
external collaborator (§1), so the per-step cycle counts are abstracted as a
stream read off at an advancing position. -/
structure Soc where
  cycle_counts : Nat → Nat
  pos : Nat

/-- Modelled from the spec (§4.7): one Soc::run returns the next cycle count
of the stream and advances the position. -/
def Soc.run (s : Soc) : Nat × Soc :=
  (s.cycle_counts s.pos, { s with pos := s.pos + 1 })

/-- Emulator pacing states (enum EmulatorState, src/emulator.rs lines 14-20). -/
inductive EmulatorState where
  | GetTime
  | RunMachine
  | WaitNextFrame
  | DisplayFrame
  deriving DecidableEq, Repr

/-- ONE_FRAME_IN_CYCLES (src/emulator.rs line 11). -/
def ONE_FRAME_IN_CYCLES : Nat := 70224

/-- Emulator state taking part in Emulator::step (struct Emulator,
src/emulator.rs lines 22-33); the wall-clock tick and the debugger fields are
not read or written by step. -/
structure Emulator where
  soc : Soc
  state : EmulatorState
  cycles_elapsed_in_frame : Nat

/-- Emulator::step (src/emulator.rs lines 64-71): add the cycle count of one
Soc::run call to the frame counter; if it reaches ONE_FRAME_IN_CYCLES, reset
the counter to 0 and move to WaitNextFrame. -/
def Emulator.step (e : Emulator) : Emulator :=
  let r := e.soc.run
  let cycles := e.cycles_elapsed_in_frame + r.1
  if ONE_FRAME_IN_CYCLES ≤ cycles then
    { e with
      soc := r.2
      cycles_elapsed_in_frame := 0
      state := .WaitNextFrame }
  else
    { e with
      soc := r.2
      cycles_elapsed_in_frame := cycles }

/-- C8: each Emulator::step adds the cycle count returned by Soc::run to
cycles_elapsed_in_frame; on the step where the accumulated total first
reaches at least 70224 the counter resets to 0 and the state advances to
WaitNextFrame, and on every earlier step the state is left unchanged. -/
theorem emulator_step_frame (e : Emulator) :
    (e.cycles_elapsed_in_frame + (e.soc.run).1 < 70224 →
      (e.step).state = e.state ∧
      (e.step).cycles_elapsed_in_frame = e.cycles_elapsed_in_frame + (e.soc.run).1) ∧
    (70224 ≤ e.cycles_elapsed_in_frame + (e.soc.run).1 →
      (e.step).state = EmulatorState.WaitNextFrame ∧
      (e.step).cycles_elapsed_in_frame = 0) := by
  constructor
  · intro h
    unfold Emulator.step
    dsimp only
    rw [if_neg (show ¬ (ONE_FRAME_IN_CYCLES ≤ e.cycles_elapsed_in_frame + (e.soc.run).1) from by
      unfold ONE_FRAME_IN_CYCLES
      omega)]
    exact ⟨rfl, rfl⟩
  · intro h
    unfold Emulator.step
    dsimp only
    rw [if_pos (show ONE_FRAME_IN_CYCLES ≤ e.cycles_elapsed_in_frame + (e.soc.run).1 from by
      unfold ONE_FRAME_IN_CYCLES
      omega)]
    exact ⟨rfl, rfl⟩

/-- Concrete emulator used by the C8 witness: 70220 cycles already elapsed
and the next instruction costs 4 cycles, so this step completes the frame. -/
def E0 : Emulator :=
  { soc := { cycle_counts := fun _ => 4, pos := 0 }
    state := .RunMachine
    cycles_elapsed_in_frame := 70220 }

/-- Witness for C8: the step that reaches exactly 70224 cycles resets the
counter and moves to WaitNextFrame. -/
theorem emulator_step_frame_witness :
    (E0.step).state = EmulatorState.WaitNextFrame ∧
    (E0.step).cycles_elapsed_in_frame = 0 :=
  (emulator_step_frame E0).2 (by decide)

end Qoboy
